import Mathlib

/-!
Verification of the hydration-and-metrics pipeline in `scripts/getRepo.py`
(repository `Benchmark-of-Typescript-Projects`).

The Python script is shallowly embedded: pure helper functions become Lean
functions; the outcomes of external effects (git subprocesses, the filesystem
walk, the `madge` subprocess, the JSONC parse of `tsconfig.json`) are inputs
to the embedded functions, so each `try/except` branch of the source becomes a
case split on such an outcome value.
-/

namespace GetRepo

/-- JSON values, as produced by `json.loads` / `JsoncParser.parse_file` in the
source. Python `False` is `JsonVal.bool false`. Objects keep their field
order; lookups are last-wins, matching Python dict construction. -/
inductive JsonVal where
  | null : JsonVal
  | bool (b : Bool) : JsonVal
  | num (n : Int) : JsonVal
  | str (s : String) : JsonVal
  | arr (xs : List JsonVal) : JsonVal
  | obj (fields : List (String × JsonVal)) : JsonVal

/-- `d.get(k)` on a Python dict built from an association list: the last
binding of `k` wins, `none` when `k` is absent. -/
def pyDictGet (fields : List (String × JsonVal)) (k : String) : Option JsonVal :=
  fields.foldl (fun acc p => if p.1 = k then some p.2 else acc) none

/-- Is a JSON value a boolean? -/
def isBool : JsonVal → Bool
  | .bool _ => true
  | _ => false

/-- The four compiler options read by `get_tsconfig_strictness`
(src/scripts/getRepo.py lines 112-117). -/
def strictnessKeys : List String :=
  ["strict", "strictNullChecks", "noImplicitAny", "skipLibCheck"]

/-- Embedding of `get_tsconfig_strictness` (src/scripts/getRepo.py lines
96-121). The input models the state of `tsconfig.json` at the working-tree
root: `none` when the file does not exist, `some (.error e)` when
`JsoncParser.parse_file` raises, `some (.ok v)` when it parses to `v`.
A non-object parse result makes `config.get` / `compilerOptions.get` raise
`AttributeError`, which the source's `except Exception` turns into `{}`. -/
def get_tsconfig_strictness (tsconfig : Option (Except String JsonVal)) :
    List (String × JsonVal) :=
  match tsconfig with
  | none => []
  | some (.error _) => []
  | some (.ok (.obj fields)) =>
      match (pyDictGet fields "compilerOptions").getD (.obj []) with
      | .obj co =>
          [("strict", (pyDictGet co "strict").getD (.bool false)),
           ("strictNullChecks", (pyDictGet co "strictNullChecks").getD (.bool false)),
           ("noImplicitAny", (pyDictGet co "noImplicitAny").getD (.bool false)),
           ("skipLibCheck", (pyDictGet co "skipLibCheck").getD (.bool false))]
      | _ => []
  | some (.ok _) => []

/-! ## Line counter (`count_loc_by_language`, src/scripts/getRepo.py lines 33-75) -/

/-- Whitespace as recognised by Python `str.strip()` on ASCII text. -/
def isPySpace (c : Char) : Bool :=
  c = ' ' || c = '\t' || c = '\n' || c = '\r' || c = Char.ofNat 11 || c = Char.ofNat 12

/-- One byte of a file as seen by `open(p, "r", errors="ignore")`: either a
byte that decodes to the character `c`, or a byte that is invalid in the
file's encoding. Newlines are valid bytes, so splitting a file into lines
commutes with decoding and files are modelled as lists of lines of bytes. -/
inductive ByteTok where
  | valid (c : Char) : ByteTok
  | invalid : ByteTok

/-- Decoding with `errors="ignore"` (the source, line 68): invalid bytes are
dropped. -/
def decodeIgnore (l : List ByteTok) : List Char :=
  l.filterMap fun t => match t with | .valid c => some c | .invalid => none

/-- Modelled from the spec: decoding in which "invalid bytes [are] replaced"
(`errors="replace"`), each invalid byte becoming U+FFFD. Stated only to be
compared with `decodeIgnore`, the decoding the source actually uses. -/
def decodeReplace (l : List ByteTok) : List Char :=
  l.map fun t => match t with | .valid c => c | .invalid => Char.ofNat 0xFFFD

/-- Python `str.strip()`: remove leading and trailing whitespace. -/
def pythonStrip (l : List Char) : List Char :=
  ((l.dropWhile isPySpace).reverse.dropWhile isPySpace).reverse

/-- `sum(1 for line in fh if line.strip())` (source, line 69) over a file
decoded with `errors="ignore"`: the number of lines that are non-empty after
stripping. -/
def countFileLines (lines : List (List ByteTok)) : Nat :=
  (lines.filter fun l => !(pythonStrip (decodeIgnore l)).isEmpty).length

/-- Modelled from the spec: the same count under replaced-byte decoding, for
comparison with `countFileLines`. -/
def countFileLinesReplace (lines : List (List ByteTok)) : Nat :=
  (lines.filter fun l => !(pythonStrip (decodeReplace l)).isEmpty).length

/-- Python `str.lower()`, character by character. -/
def strToLower (s : String) : String :=
  String.mk (s.toList.map Char.toLower)

/-- `pathlib.Path(name).suffix`: the extension of the final path component
including its dot, `""` when there is no dot, the name starts with its only
dot, or the name ends with the dot. -/
def pySuffix (name : String) : String :=
  let rev := name.toList.reverse
  let ext := rev.takeWhile (fun c => !(c = '.'))
  match rev.dropWhile (fun c => !(c = '.')) with
  | [] => ""
  | _ :: rest =>
      if rest.isEmpty || ext.isEmpty then "" else String.mk ('.' :: ext.reverse)

/-- src/scripts/getRepo.py line 21. -/
def EXCLUDE_FILE_EXTS : List String :=
  [".png", ".jpg", ".jpeg", ".gif", ".bmp", ".pdf", ".svg", ".ico", ".zip",
   ".gz", ".rar", ".7z"]

/-- src/scripts/getRepo.py line 22. -/
def TS_EXTS : List String := [".ts", ".tsx"]

/-- src/scripts/getRepo.py line 23. -/
def JS_EXTS : List String := [".js", ".jsx"]

/-- src/scripts/getRepo.py lines 24-28. -/
def OTHER_CODE_EXTS : List String :=
  [".py", ".java", ".go", ".rs", ".c", ".cc", ".cpp", ".h", ".hh", ".hpp",
   ".cs", ".kt", ".swift", ".rb", ".php", ".m", ".mm", ".scala", ".lua",
   ".dart", ".sh", ".bash", ".zsh", ".ps1", ".r", ".pl", ".sql", ".vue"]

/-- src/scripts/getRepo.py line 29: `10 * 1024 * 1024`. -/
def MAX_FILE_BYTES : Nat := 10 * 1024 * 1024

/-- A file met by the `os.walk` traversal (after directory pruning). `size`
is the result of `p.stat().st_size`, `none` when `stat` raises; `content` is
the file's lines of bytes, `none` when `open`/read raises an exception other
than a decoding error (decoding errors cannot raise under `errors="ignore"`). -/
structure FileEntry where
  name : String
  size : Option Nat
  content : Option (List (List ByteTok))

/-- The three counting buckets of `totals` (source, line 36). -/
inductive Bucket where
  | typescript : Bucket
  | javascript : Bucket
  | other : Bucket

/-- The bucket classification of source lines 57-64: TS extensions or a
`.d.ts` suffix, then JS extensions, then the other code extensions, else the
file is ignored. -/
def classifyFile (filename : String) : Option Bucket :=
  let t := strToLower (pySuffix filename)
  if t ∈ TS_EXTS || (".d.ts".toList).isSuffixOf (strToLower filename).toList then
    some .typescript
  else if t ∈ JS_EXTS then some .javascript
  else if t ∈ OTHER_CODE_EXTS then some .other
  else none

/-- What one file adds to `totals`, following source lines 44-72 in order:
excluded extension → nothing; `stat` failure or size above the ceiling →
nothing; unclassified extension → nothing; read failure → nothing; otherwise
its non-blank line count goes to its bucket. -/
def fileContribution (f : FileEntry) : Option (Bucket × Nat) :=
  let t := strToLower (pySuffix f.name)
  if t ∈ EXCLUDE_FILE_EXTS then none
  else match f.size with
    | none => none
    | some sz =>
        if MAX_FILE_BYTES < sz then none
        else match classifyFile f.name with
          | none => none
          | some b => match f.content with
              | none => none
              | some lines => some (b, countFileLines lines)

/-- The result shape of `count_loc_by_language`. -/
structure LanguageLineCounts where
  typescript : Nat
  javascript : Nat
  other : Nat
  total : Nat
deriving DecidableEq

/-- `totals[codeType] += n` (source, line 70) for one file. -/
def addContribution (acc : LanguageLineCounts) (f : FileEntry) : LanguageLineCounts :=
  match fileContribution f with
  | some (.typescript, n) => { acc with typescript := acc.typescript + n }
  | some (.javascript, n) => { acc with javascript := acc.javascript + n }
  | some (.other, n) => { acc with other := acc.other + n }
  | none => acc

/-- Embedding of `count_loc_by_language` (source lines 33-75) over the list
of files the pruned walk visits: buckets start at 0, each visited file adds
its contribution, and `total` is set to the bucket sum at the end (line 74). -/
def count_loc_by_language (files : List FileEntry) : LanguageLineCounts :=
  let totals := files.foldl addContribution ⟨0, 0, 0, 0⟩
  { totals with total := totals.typescript + totals.javascript + totals.other }

/-! ## Dependency-graph adapter (`get_dependency_graph_depth`, lines 124-175) -/

/-- Outcome of the `subprocess.run(..., check=True)` invocation of madge.
`ok g` is a zero exit whose stdout parses (`g = some graph`, the JSON object
mapping each analysed module to its dependency list) or fails to parse
(`g = none`, raising `json.JSONDecodeError`); `nonZeroExit` is a
`CalledProcessError` carrying whatever exit code and output the tool
produced — madge exits non-zero both when it merely found a circular
dependency and when it crashed; `otherError` is any other exception
(e.g. `FileNotFoundError` when `npx` is missing). -/
inductive RunResult where
  | ok (graph : Option (List (String × List String))) : RunResult
  | nonZeroExit (code : Nat) (stdout stderr : String) : RunResult
  | otherError (msg : String) : RunResult

/-- `GraphMetrics`: the adapter returns `{"module_count": ...}` on success
and `{"error": ...}` on any failure path. -/
inductive GraphResult where
  | success (module_count : Nat) : GraphResult
  | error (msg : String) : GraphResult
deriving DecidableEq

/-- Source lines 155-159: the cardinality of the set of all graph keys plus
all targets of dependency edges. -/
def moduleCount (g : List (String × List String)) : Nat :=
  (g.map Prod.fst ++ (g.map Prod.snd).flatten).dedup.length

/-- Embedding of `get_dependency_graph_depth` (source lines 124-175): the
`try` body reduced over the subprocess outcome, with each `except` clause a
branch; `.error` is an exception escaping the function. Every
`CalledProcessError` — whatever its exit code, stdout or stderr — takes the
same branch (lines 165-169), but that branch's warning line first evaluates
`e.stderr.strip().splitlines()[-1]`: `str.splitlines()` is empty exactly for
the empty string, so when the stderr strips to nothing the `[-1]` raises
`IndexError` inside the handler, which no sibling `except` catches, and the
adapter raises instead of returning; otherwise it returns the degraded
error result. -/
def get_dependency_graph_depth (r : RunResult) : Except String GraphResult :=
  match r with
  | .ok (some g) => .ok (.success (moduleCount g))
  | .ok none => .ok (.error "Madge output invalid")
  | .nonZeroExit _ _ err =>
      if (pythonStrip err.toList).isEmpty then
        .error "IndexError: list index out of range"
      else .ok (.error "Madge execution failed")
  | .otherError _ => .ok (.error "General Madge error")

/-! ## Hydrator (`clone_or_checkout`, lines 81-93) -/

/-- Python `str.split("/")`. -/
def splitSlash : List Char → List (List Char)
  | [] => [[]]
  | c :: rest =>
      match splitSlash rest with
      | [] => [[]]
      | g :: gs => if c = '/' then [] :: g :: gs else (c :: g) :: gs

/-- `owner, name = repo_full.split("/")` (source, line 83): succeeds exactly
when the split has two parts, otherwise Python raises `ValueError`. -/
def splitRepo (s : String) : Option (String × String) :=
  match splitSlash s.toList with
  | [o, n] => some (String.mk o, String.mk n)
  | _ => none

/-- `dest = BASE_DIR / name` (source, line 84): the destination directory of
a repo, keyed by the short name after the slash only. -/
def destOf (repo_full : String) : Option String :=
  (splitRepo repo_full).map Prod.snd

/-- Embedding of the destination logic of `clone_or_checkout` (source lines
81-93) over the set `fs` of directory names already present under
`BASE_DIR`. Returns `none` when the repo string does not split in two
(`ValueError`); otherwise the new directory set, whether a `git clone` was
issued (only when `dest` did not exist), and the directory that the
subsequent `git fetch` / `git checkout` run in. -/
def clone_or_checkout (fs : List String) (repo_full : String) :
    Option (List String × Bool × String) :=
  match splitRepo repo_full with
  | none => none
  | some (_, name) =>
      if name ∈ fs then some (fs, false, name)
      else some (fs ++ [name], true, name)

/-! ## Metadata assembly (`main`, lines 177-224) -/

/-- Per-repository environment: the outcomes of the effects `main` performs
for one corpus row. `hydration` is the outcome of the three git subprocesses
of `clone_or_checkout` (`.error` = a `CalledProcessError`); `files` is what
the walk of the working tree visits; `tsconfig` and `graphRun` are as in the
analyzers above. -/
structure RepoEnv where
  hydration : Except String Unit
  files : List FileEntry
  tsconfig : Option (Except String JsonVal)
  graphRun : RunResult

/-- One line of `logs/corpus.jsonl` together with the environment its
processing runs in. -/
structure CorpusRow where
  repo : String
  sha : String
  commit_date : Option String
  license_spdx : Option String
  curation : Option JsonVal
  env : RepoEnv

/-- The value stored at `metadata[repo]` (source lines 207-215). -/
structure HydratedRecord where
  commit_sha : String
  commit_date : Option String
  license_spdx : Option String
  curation : Option JsonVal
  loc : LanguageLineCounts
  tsconfig_data : List (String × JsonVal)
  graph_data : GraphResult

/-- Did the hydration step succeed for this row? -/
def hydOk (row : CorpusRow) : Bool :=
  match row.env.hydration with
  | .ok _ => true
  | .error _ => false

/-- Did the row's dependency-graph call return (rather than raise)? -/
def graphOk (row : CorpusRow) : Bool :=
  match get_dependency_graph_depth row.env.graphRun with
  | .ok _ => true
  | .error _ => false

/-- The record `main` assembles for a row whose hydration succeeded and
whose graph call returned `gd`. -/
def recordOf (row : CorpusRow) (gd : GraphResult) : HydratedRecord :=
  { commit_sha := row.sha
    commit_date := row.commit_date
    license_spdx := row.license_spdx
    curation := row.curation
    loc := count_loc_by_language row.env.files
    tsconfig_data := get_tsconfig_strictness row.env.tsconfig
    graph_data := gd }

/-- `metadata[repo] = value` on a Python dict kept as an insertion-ordered
association list: overwrite in place when the key exists, append otherwise. -/
def metaInsert (m : List (String × HydratedRecord)) (k : String)
    (v : HydratedRecord) : List (String × HydratedRecord) :=
  if m.any (fun p => p.1 = k) then
    m.map (fun p => if p.1 = k then (k, v) else p)
  else m ++ [(k, v)]

/-- One iteration of the corpus loop (source lines 186-219): hydration
failure is caught (`except subprocess.CalledProcessError` /
`except Exception`), a warning is printed and `metadata` is left unchanged;
an exception escaping `get_dependency_graph_depth` (the blank-stderr
`IndexError` of its `CalledProcessError` handler) is likewise caught by
`main`'s generic `except Exception` (line 218) before `metadata[repo]` is
assigned, so the row is skipped; otherwise the assembled record is stored
under the full `owner/name` key. -/
def step (m : List (String × HydratedRecord)) (row : CorpusRow) :
    List (String × HydratedRecord) :=
  match row.env.hydration with
  | .error _ => m
  | .ok _ =>
      match get_dependency_graph_depth row.env.graphRun with
      | .error _ => m
      | .ok gd => metaInsert m row.repo (recordOf row gd)

/-- The metadata mapping `main` writes to `logs/metadata.json`: the corpus
rows folded over an initially empty dict (source lines 183-223). -/
def mainMetadata (corpus : List CorpusRow) : List (String × HydratedRecord) :=
  corpus.foldl step []

/-- The skip log (`LOG_FILE`, source line 15) across a run of `main`: the
constant `LOG_FILE` is defined but no statement of `main` (or of any helper)
opens, truncates or appends to it, so the run maps any prior log content to
itself and contributes no lines. -/
def runSkipLog (prior : List String) (_corpus : List CorpusRow) : List String :=
  prior

/-! ## Concrete fixtures shared by several theorems -/

/-- A `tsconfig.json` parse result whose `strict` option is set to the JSON
number `1` rather than a boolean. -/
def cfgStrictNum : Option (Except String JsonVal) :=
  some (.ok (.obj [("compilerOptions", .obj [("strict", .num 1)])]))

/-- An environment in which every effect succeeds. -/
def envOk : RepoEnv :=
  { hydration := .ok (), files := [], tsconfig := none, graphRun := .ok (some []) }

/-- An environment whose `git clone` raises `CalledProcessError`. -/
def envCloneFail : RepoEnv :=
  { hydration := .error "git clone: unreachable host", files := [],
    tsconfig := none, graphRun := .ok (some []) }

/-- Corpus entry 1 of the three-entry end-to-end scenario. -/
def row1 : CorpusRow :=
  { repo := "alpha/one", sha := "a1", commit_date := none, license_spdx := none,
    curation := none, env := envOk }

/-- Corpus entry 2: its clone fails. -/
def row2 : CorpusRow :=
  { repo := "beta/two", sha := "b2", commit_date := none, license_spdx := none,
    curation := none, env := envCloneFail }

/-- Corpus entry 3, processed after the failure. -/
def row3 : CorpusRow :=
  { repo := "gamma/three", sha := "c3", commit_date := none, license_spdx := none,
    curation := none, env := envOk }

/-- The three-entry corpus in which entry 2's clone fails. -/
def corpus3 : List CorpusRow := [row1, row2, row3]

/-! ## Theorems -/

/-- C1 counterexample: with no `tsconfig.json` at the root, the reader
returns the empty mapping, in which the recognized option `strict` is not
present at all — refuting that each of the four options "is present and
equal to false". -/
theorem c1_missing_tsconfig_counterexample :
    get_tsconfig_strictness none = [] ∧
    "strict" ∉ (get_tsconfig_strictness none).map Prod.fst := by
  refine ⟨rfl, ?_⟩
  simp [get_tsconfig_strictness]

/-- C1 amended: when the configuration file is absent, and likewise when it
fails to parse, `get_tsconfig_strictness` returns the empty flags mapping
(no option present, rather than all four present as `false`) and raises no
error. -/
theorem c1_missing_tsconfig_amended (ts : Option (Except String JsonVal))
    (h : ts = none ∨ ∃ e, ts = some (.error e)) :
    get_tsconfig_strictness ts = [] := by
  rcases h with rfl | ⟨e, rfl⟩ <;> rfl

/-- Witness for C1 at a concrete unparsable configuration. -/
theorem c1_missing_tsconfig_witness :
    get_tsconfig_strictness (some (.error "unexpected token")) = [] :=
  c1_missing_tsconfig_amended _ (Or.inr ⟨"unexpected token", rfl⟩)

/-- C6 counterexample: a parsed configuration setting `strict` to the JSON
number `1` flows through verbatim, so the returned `strict` value is not a
boolean. -/
theorem c6_flags_boolean_counterexample :
    pyDictGet (get_tsconfig_strictness cfgStrictNum) "strict" = some (.num 1) ∧
    isBool (.num 1) = false :=
  ⟨rfl, rfl⟩

/-- C6 amended: for a parsed configuration whose `compilerOptions` is an
object, each of the four recognized option names maps to `false` when unset
and to the configured value verbatim when set (hence to a boolean only when
the configuration sets a boolean). -/
theorem c6_flags_verbatim_amended (co : List (String × JsonVal)) (k : String)
    (hk : k ∈ strictnessKeys) :
    pyDictGet
        (get_tsconfig_strictness (some (.ok (.obj [("compilerOptions", .obj co)])))) k
      = some ((pyDictGet co k).getD (.bool false)) := by
  simp only [strictnessKeys, List.mem_cons, List.not_mem_nil, or_false] at hk
  rcases hk with rfl | rfl | rfl | rfl <;> rfl

/-- Witness for C6 at a configuration that sets `skipLibCheck` to `true`. -/
theorem c6_flags_verbatim_witness :
    pyDictGet
        (get_tsconfig_strictness
          (some (.ok (.obj [("compilerOptions",
            .obj [("skipLibCheck", .bool true)])])))) "skipLibCheck"
      = some (.bool true) :=
  c6_flags_verbatim_amended [("skipLibCheck", .bool true)] "skipLibCheck"
    (by simp [strictnessKeys])

/-- C7: in every `LanguageLineCounts` produced by `count_loc_by_language`,
`total` equals the sum of the three buckets (all values are naturals, hence
non-negative), and the accumulators of a call start from zero rather than
from a prior run's result. -/
theorem c7_total_is_bucket_sum :
    (∀ files : List FileEntry,
        (count_loc_by_language files).total =
          (count_loc_by_language files).typescript +
            (count_loc_by_language files).javascript +
            (count_loc_by_language files).other) ∧
    count_loc_by_language [] = ⟨0, 0, 0, 0⟩ :=
  ⟨fun _ => rfl, rfl⟩

/-- Dropping a satisfying prefix does not change whether every element
satisfies the predicate. -/
theorem forall_mem_dropWhile_iff {α : Type} (p : α → Bool) (l : List α) :
    (∀ c ∈ l.dropWhile p, p c) ↔ ∀ c ∈ l, p c := by
  constructor
  · intro h c hc
    rw [← List.takeWhile_append_dropWhile (p := p) (l := l)] at hc
    rcases List.mem_append.mp hc with h1 | h2
    · exact List.mem_takeWhile_imp h1
    · exact h c h2
  · intro h c hc
    exact h c ((List.dropWhile_sublist (p := p)).mem hc)

/-- `line.strip()` is empty exactly when every character of the line is
whitespace. -/
theorem pythonStrip_eq_nil_iff (l : List Char) :
    pythonStrip l = [] ↔ ∀ c ∈ l, isPySpace c := by
  unfold pythonStrip
  rw [List.reverse_eq_nil_iff, List.dropWhile_eq_nil_iff]
  simp only [List.mem_reverse]
  exact forall_mem_dropWhile_iff _ _

/-- Truthiness of `line.strip()` coincides with the line having some
non-whitespace character. -/
theorem stripped_nonempty_eq_any (l : List Char) :
    (!(pythonStrip l).isEmpty) = l.any fun c => !isPySpace c := by
  rcases h : l.any fun c => !isPySpace c with _ | _
  · have hall : ∀ c ∈ l, isPySpace c := by
      intro c hc
      have := List.any_eq_false.mp h c hc
      simpa using this
    simp only [List.isEmpty_iff, pythonStrip_eq_nil_iff, Bool.not_eq_false']
    exact hall
  · rcases List.any_eq_true.mp h with ⟨c, hc, hspace⟩
    have hne : pythonStrip l ≠ [] := by
      intro hnil
      have := (pythonStrip_eq_nil_iff l).mp hnil c hc
      simp [this] at hspace
    simp [List.isEmpty_iff, hne]

/-- C8: a line of an included file is counted exactly when it has content
left after trimming surrounding whitespace, and a file consisting only of
whitespace-only lines contributes a count of 0. -/
theorem c8_nonblank_lines_counted (lines : List (List ByteTok)) :
    countFileLines lines =
      (lines.filter fun l => (decodeIgnore l).any fun c => !isPySpace c).length ∧
    ((∀ l ∈ lines, ∀ c ∈ decodeIgnore l, isPySpace c) → countFileLines lines = 0) := by
  constructor
  · unfold countFileLines
    congr 1
    apply List.filter_congr
    intro l _
    exact stripped_nonempty_eq_any (decodeIgnore l)
  · intro h
    unfold countFileLines
    rw [List.length_eq_zero]
    rw [List.filter_eq_nil_iff]
    intro l hl
    have : pythonStrip (decodeIgnore l) = [] :=
      (pythonStrip_eq_nil_iff _).mpr (h l hl)
    simp [this]

/-- Witness for C8: a two-line file of a blank and a tab-only line counts 0. -/
theorem c8_nonblank_lines_witness :
    countFileLines [[ByteTok.valid ' '], [ByteTok.valid '\t']] = 0 :=
  (c8_nonblank_lines_counted [[ByteTok.valid ' '], [ByteTok.valid '\t']]).2 (by decide)

/-- C9: a file whose (lower-cased) extension is a known binary/media format,
or whose size exceeds the 10 MiB ceiling, contributes nothing to any bucket,
whatever its classification would have been. -/
theorem c9_excluded_files_contribute_nothing (f : FileEntry)
    (h : strToLower (pySuffix f.name) ∈ EXCLUDE_FILE_EXTS ∨
      ∃ sz, f.size = some sz ∧ MAX_FILE_BYTES < sz) :
    fileContribution f = none ∧ ∀ acc, addContribution acc f = acc := by
  have hc : fileContribution f = none := by
    rcases h with h | ⟨sz, hsz, hgt⟩
    · simp [fileContribution, h]
    · unfold fileContribution
      rw [hsz]
      by_cases hex : strToLower (pySuffix f.name) ∈ EXCLUDE_FILE_EXTS
      · simp [hex]
      · simp [hex, hgt]
  exact ⟨hc, fun acc => by simp [addContribution, hc]⟩

/-- A 10 MiB + 1 blob with a spoofed `.ts` extension. -/
def bigSpoofedFile : FileEntry :=
  { name := "blob.ts", size := some (MAX_FILE_BYTES + 1),
    content := some [[ByteTok.valid 'x']] }

/-- An ordinary image file. -/
def pngFile : FileEntry :=
  { name := "img.PNG", size := some 5, content := some [[ByteTok.valid 'x']] }

/-- Witness for C9 at the oversized spoofed file and at an excluded
extension. -/
theorem c9_excluded_files_witness :
    fileContribution bigSpoofedFile = none ∧
    addContribution ⟨1, 2, 3, 4⟩ pngFile = ⟨1, 2, 3, 4⟩ :=
  ⟨(c9_excluded_files_contribute_nothing bigSpoofedFile
      (Or.inr ⟨MAX_FILE_BYTES + 1, rfl, by decide⟩)).1,
   (c9_excluded_files_contribute_nothing pngFile (Or.inl (by decide))).2 ⟨1, 2, 3, 4⟩⟩

/-- C5 counterexample: a file whose single line is one invalid byte counts 0
lines under the decoding the source uses (`errors="ignore"`, invalid bytes
dropped), but would count 1 line under the claimed replaced-bytes decoding
(U+FFFD is not whitespace) — so the counting is not the claimed "invalid
bytes are replaced" semantics. -/
theorem c5_decoding_counterexample :
    countFileLines [[ByteTok.invalid]] = 0 ∧
    countFileLinesReplace [[ByteTok.invalid]] = 1 ∧
    countFileLines [[ByteTok.invalid]] ≠ countFileLinesReplace [[ByteTok.invalid]] := by
  refine ⟨rfl, rfl, ?_⟩
  decide

/-- Re-encoding only the validly decoded bytes of each line. -/
theorem decodeIgnore_map_valid (cs : List Char) :
    decodeIgnore (cs.map ByteTok.valid) = cs := by
  induction cs with
  | nil => rfl
  | cons c rest ih => simp [decodeIgnore, List.filterMap_cons] at ih ⊢; exact ih

/-- C5 amended: per-file read failures are tolerated by best-effort decoding
in which invalid bytes are dropped (`errors="ignore"`), not replaced — the
count only depends on the validly decoded characters — and a file whose read
raises any other exception (or whose `stat` raises) is silently skipped,
contributing nothing, so it never fails the whole count. -/
theorem c5_read_failures_amended :
    (∀ lines : List (List ByteTok),
        countFileLines lines =
          countFileLines (lines.map fun l => (decodeIgnore l).map ByteTok.valid)) ∧
    (∀ (files : List FileEntry) (f : FileEntry), f.content = none ∨ f.size = none →
        count_loc_by_language (files ++ [f]) = count_loc_by_language files) := by
  constructor
  · intro lines
    unfold countFileLines
    rw [List.filter_map, List.length_map]
    congr 1
    apply List.filter_congr
    intro l _
    simp [Function.comp, decodeIgnore_map_valid]
  · intro files f h
    have hc : fileContribution f = none := by
      rcases h with h | h
      · unfold fileContribution
        by_cases hex : strToLower (pySuffix f.name) ∈ EXCLUDE_FILE_EXTS
        · simp [hex]
        · rcases hsz : f.size with _ | sz
          · simp [hex, hsz]
          · by_cases hbig : MAX_FILE_BYTES < sz
            · simp [hex, hsz, hbig]
            · rcases hcl : classifyFile f.name with _ | b
              · simp [hex, hsz, hbig, hcl]
              · simp [hex, hsz, hbig, hcl, h]
      · unfold fileContribution
        by_cases hex : strToLower (pySuffix f.name) ∈ EXCLUDE_FILE_EXTS
        · simp [hex]
        · simp [hex, h]
    unfold count_loc_by_language
    rw [List.foldl_append]
    simp [addContribution, hc]

/-- A readable one-line TypeScript file. -/
def okFile : FileEntry :=
  { name := "y.ts", size := some 3, content := some [[ByteTok.valid 'x']] }

/-- A file whose read raises a non-decoding exception. -/
def unreadableFile : FileEntry :=
  { name := "x.ts", size := some 3, content := none }

/-- Witness for C5: appending the unreadable file changes no count. -/
theorem c5_read_failures_witness :
    count_loc_by_language [okFile, unreadableFile] = count_loc_by_language [okFile] :=
  c5_read_failures_amended.2 [okFile] unreadableFile (Or.inl rfl)

/-! ## Lemmas about the metadata dict -/

/-- Keys after a dict store: the stored key together with the old keys. -/
theorem mem_map_fst_metaInsert (m : List (String × HydratedRecord)) (k : String)
    (v : HydratedRecord) (r : String) :
    r ∈ (metaInsert m k v).map Prod.fst ↔ r = k ∨ r ∈ m.map Prod.fst := by
  unfold metaInsert
  split
  · rename_i hany
    have hkeys : (m.map fun p => if p.1 = k then (k, v) else p).map Prod.fst
        = m.map Prod.fst := by
      rw [List.map_map]
      apply List.map_congr_left
      intro p _
      by_cases hp : p.1 = k
      · simp [hp]
      · simp [hp]
    rw [hkeys]
    constructor
    · exact Or.inr
    · rintro (rfl | h)
      · rcases List.any_eq_true.mp hany with ⟨p, hp, hpk⟩
        exact List.mem_map.mpr ⟨p, hp, of_decide_eq_true hpk⟩
      · exact h
  · simp [or_comm]

/-- Storing under a key puts that binding in the dict. -/
theorem mem_metaInsert_self (m : List (String × HydratedRecord)) (k : String)
    (v : HydratedRecord) : (k, v) ∈ metaInsert m k v := by
  unfold metaInsert
  split
  · rename_i hany
    rcases List.any_eq_true.mp hany with ⟨p, hp, hpk⟩
    exact List.mem_map.mpr ⟨p, hp, by simp [of_decide_eq_true hpk]⟩
  · simp

/-- Storing under a different key keeps an existing binding. -/
theorem mem_metaInsert_of_ne (m : List (String × HydratedRecord))
    (k' : String) (v' : HydratedRecord) (k : String) (v : HydratedRecord)
    (h : (k, v) ∈ m) (hne : k ≠ k') : (k, v) ∈ metaInsert m k' v' := by
  unfold metaInsert
  split
  · exact List.mem_map.mpr ⟨(k, v), h, by simp [hne]⟩
  · exact List.mem_append_left _ h

/-- One loop iteration can only add the row's own key. -/
theorem mem_keys_step (m : List (String × HydratedRecord)) (row : CorpusRow)
    (r : String) (h : r ∈ (step m row).map Prod.fst) :
    r = row.repo ∨ r ∈ m.map Prod.fst := by
  unfold step at h
  split at h
  · exact Or.inr h
  · split at h
    · exact Or.inr h
    · exact (mem_map_fst_metaInsert _ _ _ _).mp h

/-- A binding whose key no remaining row mentions survives the rest of the
loop untouched. -/
theorem pair_preserved (corpus : List CorpusRow) :
    ∀ (m : List (String × HydratedRecord)) (k : String) (v : HydratedRecord),
      (k, v) ∈ m → (∀ row ∈ corpus, row.repo ≠ k) → (k, v) ∈ corpus.foldl step m := by
  induction corpus with
  | nil => intro m k v h _; exact h
  | cons r rest ih =>
    intro m k v h hne
    rw [List.foldl_cons]
    apply ih
    · unfold step
      split
      · exact h
      · split
        · exact h
        · exact mem_metaInsert_of_ne _ _ _ _ _ h
            (fun hk => hne r (List.mem_cons_self r rest) hk.symm)
    · intro row hrow
      exact hne row (List.mem_cons_of_mem _ hrow)

/-- Under distinct corpus keys, every row whose hydration succeeded and
whose graph call returned ends up bound to exactly the record assembled for
it. -/
theorem pair_mem_fold (corpus : List CorpusRow) :
    ∀ m : List (String × HydratedRecord),
      (corpus.map CorpusRow.repo).Nodup →
      (∀ row ∈ corpus, row.repo ∉ m.map Prod.fst) →
      ∀ row ∈ corpus, hydOk row = true →
      ∀ gd, get_dependency_graph_depth row.env.graphRun = .ok gd →
        (row.repo, recordOf row gd) ∈ corpus.foldl step m := by
  induction corpus with
  | nil => intro m _ _ row h; exact absurd h (List.not_mem_nil row)
  | cons r rest ih =>
    intro m hnodup hfresh row hrow hok gd hgd
    rw [List.map_cons] at hnodup
    have hnd := List.nodup_cons.mp hnodup
    rw [List.foldl_cons]
    rcases List.mem_cons.mp hrow with rfl | hrow'
    · have hstep : (row.repo, recordOf row gd) ∈ step m row := by
        unfold hydOk at hok
        unfold step
        split
        · rename_i heq
          rw [heq] at hok
          exact absurd hok (by simp)
        · rw [hgd]
          exact mem_metaInsert_self _ _ _
      apply pair_preserved rest _ _ _ hstep
      intro row' hrow' heq
      exact hnd.1 (heq ▸ List.mem_map.mpr ⟨row', hrow', rfl⟩)
    · apply ih (step m r) hnd.2 _ row hrow' hok gd hgd
      intro row' hrow'2 hmem
      rcases mem_keys_step _ _ _ hmem with heq | hm
      · exact hnd.1 (heq ▸ List.mem_map.mpr ⟨row', hrow'2, rfl⟩)
      · exact hfresh row' (List.mem_cons_of_mem _ hrow'2) hm

/-- Keys of the final mapping: exactly the repos of rows that hydrated and
whose graph call returned rather than raised. -/
theorem keys_fold (corpus : List CorpusRow) :
    ∀ (m : List (String × HydratedRecord)) (r : String),
      r ∈ (corpus.foldl step m).map Prod.fst ↔
        r ∈ m.map Prod.fst ∨
          ∃ row ∈ corpus, row.repo = r ∧ hydOk row = true ∧ graphOk row = true := by
  induction corpus with
  | nil => simp
  | cons head tail ih =>
    intro m r
    rw [List.foldl_cons, ih]
    rcases hh : head.env.hydration with e | u
    · have hstep : step m head = m := by unfold step; rw [hh]
      have hko : hydOk head = false := by unfold hydOk; rw [hh]
      rw [hstep]
      simp only [List.mem_cons]
      constructor
      · rintro (h | ⟨row, hrow, hrep, hok⟩)
        · exact Or.inl h
        · exact Or.inr ⟨row, Or.inr hrow, hrep, hok⟩
      · rintro (h | ⟨row, (rfl | hrow), hrep, hok, hgok⟩)
        · exact Or.inl h
        · rw [hko] at hok; exact absurd hok (by simp)
        · exact Or.inr ⟨row, hrow, hrep, hok, hgok⟩
    · have hko : hydOk head = true := by unfold hydOk; rw [hh]
      rcases hg : get_dependency_graph_depth head.env.graphRun with ge | gd
      · have hstep : step m head = m := by unfold step; rw [hh, hg]
        have hgko : graphOk head = false := by unfold graphOk; rw [hg]
        rw [hstep]
        simp only [List.mem_cons]
        constructor
        · rintro (h | ⟨row, hrow, hrep, hok⟩)
          · exact Or.inl h
          · exact Or.inr ⟨row, Or.inr hrow, hrep, hok⟩
        · rintro (h | ⟨row, (rfl | hrow), hrep, hok, hgok⟩)
          · exact Or.inl h
          · rw [hgko] at hgok; exact absurd hgok (by simp)
          · exact Or.inr ⟨row, hrow, hrep, hok, hgok⟩
      · have hstep : step m head = metaInsert m head.repo (recordOf head gd) := by
          unfold step; rw [hh, hg]
        have hgko : graphOk head = true := by unfold graphOk; rw [hg]
        rw [hstep, mem_map_fst_metaInsert]
        simp only [List.mem_cons]
        constructor
        · rintro ((rfl | h) | ⟨row, hrow, hrep, hok⟩)
          · exact Or.inr ⟨head, Or.inl rfl, rfl, hko, hgko⟩
          · exact Or.inl h
          · exact Or.inr ⟨row, Or.inr hrow, hrep, hok⟩
        · rintro (h | ⟨row, (rfl | hrow), hrep, hok, hgok⟩)
          · exact Or.inl (Or.inr h)
          · exact Or.inl (Or.inl hrep.symm)
          · exact Or.inr ⟨row, hrow, hrep, hok, hgok⟩

/-- C2 counterexample: the adapter maps a non-zero exit caused by a detected
circular dependency and a non-zero exit of a crashed tool to the same result,
`{error: "Madge execution failed"}` — it does not inspect the error
condition and handles all non-zero exits alike; worse, at a non-zero exit
whose stderr is blank the handler's own warning line raises `IndexError`, so
the adapter raises rather than returning a degraded result there. -/
theorem c2_graph_adapter_counterexample :
    get_dependency_graph_depth
        (.nonZeroExit 1 "" "Circular dependency found: a.ts > b.ts > a.ts") =
      get_dependency_graph_depth (.nonZeroExit 134 "" "madge crashed: out of memory") ∧
    get_dependency_graph_depth
        (.nonZeroExit 1 "" "Circular dependency found: a.ts > b.ts > a.ts") =
      .ok (.error "Madge execution failed") ∧
    get_dependency_graph_depth (.nonZeroExit 1 "" "") =
      .error "IndexError: list index out of range" :=
  ⟨rfl, rfl, rfl⟩

/-- C2 amended: the adapter handles all non-zero tool exits in one
`CalledProcessError` branch, not distinguishing circular-dependency
detections by inspecting the error condition. When the tool's stderr has
non-whitespace content, that branch returns the degraded result
`{error: "Madge execution failed"}` without raising, and the repository
still appears in the final metadata mapping with its line counts and
strictness flags populated; when the stderr strips to nothing, the branch's
warning line itself raises `IndexError` and `main`'s generic handler then
omits the repository. -/
theorem c2_graph_adapter_amended :
    (∀ (code : Nat) (out err : String),
        (pythonStrip err.toList).isEmpty = false →
        get_dependency_graph_depth (.nonZeroExit code out err) =
          .ok (.error "Madge execution failed")) ∧
    (∀ (code : Nat) (out err : String),
        (pythonStrip err.toList).isEmpty = true →
        get_dependency_graph_depth (.nonZeroExit code out err) =
          .error "IndexError: list index out of range") ∧
    (∀ (corpus : List CorpusRow) (row : CorpusRow) (code : Nat) (out err : String),
        (corpus.map CorpusRow.repo).Nodup → row ∈ corpus →
        row.env.hydration = .ok () →
        row.env.graphRun = .nonZeroExit code out err →
        (pythonStrip err.toList).isEmpty = false →
        (row.repo,
          { commit_sha := row.sha
            commit_date := row.commit_date
            license_spdx := row.license_spdx
            curation := row.curation
            loc := count_loc_by_language row.env.files
            tsconfig_data := get_tsconfig_strictness row.env.tsconfig
            graph_data := .error "Madge execution failed" }) ∈ mainMetadata corpus) := by
  refine ⟨?_, ?_, ?_⟩
  · intro code out err hline
    unfold get_dependency_graph_depth
    dsimp only
    rw [hline]
    rfl
  · intro code out err hline
    unfold get_dependency_graph_depth
    dsimp only
    rw [hline]
    rfl
  · intro corpus row code out err hnodup hrow hhyd hgraph hline
    have hok : hydOk row = true := by unfold hydOk; rw [hhyd]
    have hgd : get_dependency_graph_depth row.env.graphRun =
        .ok (.error "Madge execution failed") := by
      rw [hgraph]
      unfold get_dependency_graph_depth
      dsimp only
      rw [hline]
      rfl
    exact pair_mem_fold corpus [] hnodup (by simp) row hrow hok
      (.error "Madge execution failed") hgd

/-- A corpus row whose graph tool exits non-zero on a circular dependency. -/
def rowCirc : CorpusRow :=
  { repo := "delta/circ", sha := "d4", commit_date := none, license_spdx := none,
    curation := none,
    env := { hydration := .ok (), files := [], tsconfig := none,
             graphRun := .nonZeroExit 1 "" "Circular dependency found" } }

/-- Witness for C2: the circular-dependency row appears in the metadata with
its metrics and a degraded graph result. -/
theorem c2_graph_adapter_witness :
    ("delta/circ",
      { commit_sha := "d4"
        commit_date := none
        license_spdx := none
        curation := none
        loc := count_loc_by_language rowCirc.env.files
        tsconfig_data := get_tsconfig_strictness rowCirc.env.tsconfig
        graph_data := .error "Madge execution failed" }) ∈ mainMetadata [rowCirc] :=
  c2_graph_adapter_amended.2.2 [rowCirc] rowCirc 1 "" "Circular dependency found"
    (by simp) (List.mem_singleton.mpr rfl) rfl rfl (by decide)

/-- C3: evaluation of the embedded run at the claim's scenario — a corpus of
3 entries where entry 2's clone fails. `main` never opens `LOG_FILE`
(`skipped_projects.log`): the run leaves any prior log content unchanged and
appends no `repo: reason` line, so after a run started with an empty log the
log holds 0 lines, not 1. -/
theorem c3_skip_log_never_written :
    (∀ (prior : List String) (corpus : List CorpusRow),
        runSkipLog prior corpus = prior) ∧
    (runSkipLog [] corpus3).length = 0 :=
  ⟨fun _ _ => rfl, rfl⟩

/-- C4: an entry all of whose corpus rows failed hydration is omitted
entirely from the final metadata mapping (never present with null metrics);
the failure does not terminate the loop — any entry that itself fully
processes (hydration succeeded and its graph call returned rather than
raising the blank-stderr `IndexError`) still appears, wherever it sits in
the corpus; concretely, on the 3-entry corpus whose entry 2 fails to clone,
the metadata keys are exactly entries 1 and 3. -/
theorem c4_hydration_failure_omitted :
    (∀ (corpus : List CorpusRow) (r : String),
        (∀ row ∈ corpus, row.repo = r → hydOk row = false) →
        r ∉ (mainMetadata corpus).map Prod.fst) ∧
    (∀ (corpus : List CorpusRow) (row : CorpusRow),
        row ∈ corpus → hydOk row = true → graphOk row = true →
        row.repo ∈ (mainMetadata corpus).map Prod.fst) ∧
    (mainMetadata corpus3).map Prod.fst = ["alpha/one", "gamma/three"] := by
  refine ⟨?_, ?_, rfl⟩
  · intro corpus r hall hmem
    rw [mainMetadata, keys_fold] at hmem
    rcases hmem with hmem | ⟨row, hrow, hrep, hok, _⟩
    · simp at hmem
    · rw [hall row hrow hrep] at hok
      exact absurd hok (by simp)
  · intro corpus row hrow hok hgok
    rw [mainMetadata, keys_fold]
    exact Or.inr ⟨row, hrow, rfl, hok, hgok⟩

/-- Witness for C4 on the 3-entry corpus: the hydration-failed entry 2 is
absent from the metadata keys, while entry 3 — processed after the failure —
is present. -/
theorem c4_hydration_failure_witness :
    "beta/two" ∉ (mainMetadata corpus3).map Prod.fst ∧
    "gamma/three" ∈ (mainMetadata corpus3).map Prod.fst :=
  ⟨c4_hydration_failure_omitted.1 corpus3 "beta/two" (by decide),
   c4_hydration_failure_omitted.2.1 corpus3 row3 (by simp [corpus3]) rfl rfl⟩

/-- C10: two `owner/name` repo strings with the same short name after the
slash get the same destination directory under `BASE_DIR`; after hydrating
the first, hydrating the second issues no clone and re-checks-out the very
same working tree; yet the two repos are distinct metadata keys, so the
final mapping keys them separately. -/
theorem c10_same_shortname_shared_worktree (r1 r2 o1 o2 n : String)
    (fs : List String)
    (h1 : splitRepo r1 = some (o1, n)) (h2 : splitRepo r2 = some (o2, n)) :
    destOf r1 = some n ∧ destOf r2 = some n ∧
    (∀ fs1 c1 d1, clone_or_checkout fs r1 = some (fs1, c1, d1) →
        clone_or_checkout fs1 r2 = some (fs1, false, d1)) ∧
    (o1 ≠ o2 → r1 ≠ r2) ∧
    (r1 ≠ r2 → ∀ row1 row2 : CorpusRow, row1.repo = r1 → row2.repo = r2 →
        hydOk row1 = true → hydOk row2 = true →
        graphOk row1 = true → graphOk row2 = true →
        (mainMetadata [row1, row2]).map Prod.fst = [r1, r2]) := by
  refine ⟨?_, ?_, ?_, ?_, ?_⟩
  · unfold destOf; rw [h1]; rfl
  · unfold destOf; rw [h2]; rfl
  · intro fs1 c1 d1 hcc
    unfold clone_or_checkout at hcc ⊢
    rw [h1] at hcc
    rw [h2]
    dsimp only at hcc ⊢
    by_cases hmem : n ∈ fs
    · rw [if_pos hmem] at hcc
      rcases Option.some.inj hcc with ⟨rfl, _, rfl⟩
      rw [if_pos hmem]
    · rw [if_neg hmem] at hcc
      rcases Option.some.inj hcc with ⟨rfl, _, rfl⟩
      rw [if_pos (List.mem_append_right fs (List.mem_singleton.mpr rfl))]
  · intro ho heq
    rw [heq, h2] at h1
    exact ho (congrArg Prod.fst (Option.some.inj h1)).symm
  · intro hne row1 row2 e1 e2 hok1 hok2 hgok1 hgok2
    unfold hydOk at hok1 hok2
    unfold graphOk at hgok1 hgok2
    rcases hh1 : row1.env.hydration with err1 | u1
    · rw [hh1] at hok1; exact absurd hok1 (by simp)
    rcases hh2 : row2.env.hydration with err2 | u2
    · rw [hh2] at hok2; exact absurd hok2 (by simp)
    rcases hg1 : get_dependency_graph_depth row1.env.graphRun with ge1 | gd1
    · rw [hg1] at hgok1; exact absurd hgok1 (by simp)
    rcases hg2 : get_dependency_graph_depth row2.env.graphRun with ge2 | gd2
    · rw [hg2] at hgok2; exact absurd hgok2 (by simp)
    have hne' : row1.repo ≠ row2.repo := by rw [e1, e2]; exact hne
    unfold mainMetadata
    rw [List.foldl_cons, List.foldl_cons, List.foldl_nil]
    have hstep1 : step [] row1 = [(row1.repo, recordOf row1 gd1)] := by
      unfold step
      rw [hh1]
      dsimp only
      rw [hg1]
      rfl
    rw [hstep1]
    have hstep2 : step [(row1.repo, recordOf row1 gd1)] row2 =
        [(row1.repo, recordOf row1 gd1), (row2.repo, recordOf row2 gd2)] := by
      unfold step
      rw [hh2]
      dsimp only
      rw [hg2]
      dsimp only
      unfold metaInsert
      rw [if_neg (by simpa using hne')]
      rfl
    rw [hstep2, e1, e2]
    rfl

/-- Witness for C10: `ownerA/app` and `ownerB/app` share the destination
`projects/app`; after the first is hydrated, hydrating the second does not
clone. -/
theorem c10_same_shortname_witness :
    destOf "ownerA/app" = some "app" ∧
    clone_or_checkout ["app"] "ownerB/app" = some (["app"], false, "app") := by
  have h := c10_same_shortname_shared_worktree "ownerA/app" "ownerB/app"
    "ownerA" "ownerB" "app" [] (by decide) (by decide)
  exact ⟨h.1, h.2.2.1 ["app"] true "app" (by decide)⟩

end GetRepo
